import Mathlib

/-!
Verification development for the CSS custom-property resolution engine
(`src/transform-css.js`) and its chunk-coalescing orchestration layer
(`src/index.js`).

Strings from the JavaScript source are embedded as `List Char` so that all
definitions are structural and evaluate inside the kernel.  The external
collaborators that are not part of the two analysed source files
(`parse-css`, `stringify-css`, `walk-css`, `balanced-match`, `merge-deep`)
are either avoided (the embedding works directly on the rule tree, so the
text codec never appears) or modelled from the specification, as marked in
the corresponding doc comments.
-/

set_option autoImplicit false

namespace CssVars

/-- Character lists play the role of JavaScript strings. -/
abbrev Str := List Char

/-- Shorthand turning a Lean string literal into the embedded string type. -/
def str (s : String) : Str := s.data

/-- First index (if any) at which `pat` occurs as a contiguous substring of
`s`; mirrors JavaScript `String.prototype.indexOf` for a non-empty pattern. -/
def indexOfSub (s pat : Str) : Option Nat :=
  match s with
  | [] => if pat.isPrefixOf s then some 0 else none
  | _ :: rest =>
    if pat.isPrefixOf s then some 0
    else (indexOfSub rest pat).map (· + 1)

/-- `value.indexOf(pat) !== -1` for a non-empty `pat`. -/
def containsSub (s pat : Str) : Bool := (indexOfSub s pat).isSome

/-- Fuel-driven worker for `replaceAllSub`; the fuel is the length of the
subject string, which bounds the number of steps since every step consumes
at least one character. -/
def replaceAllAux : Nat → Str → Str → Str → Str
  | 0, s, _, _ => s
  | _ + 1, [], _, _ => []
  | fuel + 1, c :: rest, pat, rep =>
    if pat.isPrefixOf (c :: rest) then
      rep ++ replaceAllAux fuel (rest.drop (pat.length - 1)) pat rep
    else
      c :: replaceAllAux fuel rest pat rep

/-- JavaScript `value.split(pat).join(rep)`: replace every non-overlapping
occurrence of `pat`, scanning left to right.  The engine only ever calls it
with the non-empty pattern `var(<body>)`, so the empty-pattern branch (where
JavaScript `split('')` behaves differently) is guarded off and unreachable. -/
def replaceAllSub (s pat rep : Str) : Str :=
  if pat = [] then s else replaceAllAux s.length s pat rep

/-- Replace the first occurrence of the non-empty string `pat` in `s`;
mirrors JavaScript `String.prototype.replace` with a string pattern (the
`$`-substitution rules of `replace` never fire on the inputs the engine
produces, which contain no `$`). -/
def replaceFirstSub : Str → Str → Str → Str
  | [], _, _ => []
  | c :: rest, pat, rep =>
    if pat.isPrefixOf (c :: rest) then rep ++ rest.drop (pat.length - 1)
    else c :: replaceFirstSub rest pat rep

/-- Split `s` at the first character satisfying `p`: returns the prefix of
characters failing `p` together with the remainder starting at the first
match, or `none` when no character matches. -/
def splitAtFirst (p : Char → Bool) : Str → Option (Str × Str)
  | [] => none
  | c :: rest =>
    if p c then some ([], c :: rest)
    else (splitAtFirst p rest).map (fun pr => (c :: pr.1, pr.2))

/-- The character class `[\w-]` of the reference-parsing regular expression
`RE_VAR` (ASCII word characters, digits, underscore and hyphen). -/
def wordDash (c : Char) : Bool :=
  c.isAlpha || c.isDigit || c == '_' || c == '-'

/-- JavaScript whitespace class `\s`, restricted to the ASCII characters
that can occur in the analysed inputs. -/
def isWsJS (c : Char) : Bool :=
  c == ' ' || c == '\t' || c == '\n' || c == '\r' || c == '\x0b' || c == '\x0c'

/-! ## Data model (§3 of the spec, mirroring the AST produced by the codec) -/

/-- An entry of a declaration list.  `type` is `"declaration"` for real
declarations and `"comment"` for comment nodes, whose `property` and `value`
fields are absent (`none` models the JavaScript `undefined`). -/
structure Decl where
  type : String
  property : Option Str
  value : Option Str
  deriving DecidableEq

/-- One keyframe step of a `@keyframes` rule: its selector values and its
declaration list. -/
structure Frame where
  values : List String
  declarations : List Decl
  deriving DecidableEq

/-- Rule-tree nodes.  `decl` covers every rule that carries a `declarations`
array (`rule`, `font-face`, `page`, `host` — the JavaScript code switches on
the `type` string, kept here as the `rtype` field); `container` covers
`media`/`supports`/`document` rules that carry a nested `rules` array;
`comment` and `other` are nodes with neither field, which the filter passes
through. -/
inductive Rule where
  | decl (rtype : String) (selectors : List String) (declarations : List Decl)
  | keyframes (kname : String) (frames : List Frame)
  | container (rtype : String) (condition : String) (rules : List Rule)
  | comment (text : String)
  | other (rtype : String)

/-- The errors a transform run can surface: `typeError` models a thrown
JavaScript `TypeError` (reading a property of `undefined`), `outOfFuel`
models a recursion that has not returned within the allotted fuel. -/
inductive JsErr where
  | typeError
  | outOfFuel
  deriving DecidableEq

/-- The variable map built by `transformVars`.  Keys are variable names
including the `--` sigil; a stored `none` value corresponds to the
JavaScript `map[prop] = undefined`, which reads back exactly like an absent
key. -/
abbrev VarMap := List (Str × Option Str)

/-- JavaScript object lookup `map[name]`: the value at the first matching
key (keys are unique in an object, and `upsert` keeps them unique). -/
def assocFind (m : VarMap) (k : Str) : Option (Option Str) :=
  match m with
  | [] => none
  | (k', v) :: t => if k' = k then some v else assocFind t k

/-- The value `map[name]` denotes in the resolver: `none` when the key is
absent or was stored as `undefined`. -/
def mapGet (m : VarMap) (k : Str) : Option Str :=
  (assocFind m k).join

/-- JavaScript object assignment `map[k] = v`: overwrite the existing entry
or append a new one. -/
def upsert (m : VarMap) (k : Str) (v : Option Str) : VarMap :=
  match m with
  | [] => [(k, v)]
  | (k', v') :: t => if k' = k then (k, v) :: t else (k', v') :: upsert t k v

/-- Options of `transformVars` (the `onWarning` callback only performs
output and never influences the returned value, so it is not modelled;
`merge-deep` is likewise invisible because settings are passed fully
populated).  The source calls the override mapping `settings.variables`;
that identifier is reserved in Lean, hence the primed field name. -/
structure Settings where
  onlyVars : Bool
  preserve : Bool
  variables' : List (Str × Str)

/-! ## Value resolver (`resolveValue`, transform-css.js lines 229-272) -/

/-- Modelled from the spec: the external `balanced-match` dependency
(§4.3 step 1) — extract the body between the first opening parenthesis and
its matching closing parenthesis, supporting nested parentheses, returning
`none` when the parentheses never balance (in which case the JavaScript
code dereferences `.body` of `undefined` and throws). -/
def scanClose : Str → Nat → Str → Option Str
  | [], _, _ => none
  | c :: rest, depth, acc =>
    if c = ')' then
      if depth = 0 then some acc.reverse else scanClose rest (depth - 1) (c :: acc)
    else if c = '(' then scanClose rest (depth + 1) (c :: acc)
    else scanClose rest depth (c :: acc)

/-- Modelled from the spec: `balanced('(', ')', s).body`. -/
def balancedBody (s : Str) : Option Str :=
  match splitAtFirst (· == '(') s with
  | none => none
  | some (_, _ :: afterParen) => scanClose afterParen 0 []
  | some (_, []) => none

/-- The replacement the callback of `varRef.replace(RE_VAR, ...)` returns
(transform-css.js lines 249-261), including the JavaScript falsiness of the
empty string and the stringification of a returned `undefined`:
`!replacement && fallback` returns the fallback, otherwise `replacement`
(which prints as `undefined` when the variable is not in the map and the
fallback is empty). -/
def varSubst (m : VarMap) (name fallback : Str) : Str :=
  match mapGet m name with
  | some r => if r ≠ [] then r else (if fallback ≠ [] then fallback else r)
  | none => if fallback ≠ [] then fallback else str "undefined"

/-- One application of `varRef.replace(RE_VAR, callback)` with
`RE_VAR = ([\w-]+)(?:\s*,\s*)?(.*)?`: the first `[\w-]+` run is the name,
an optional comma unit is skipped, and `(.*)` captures the rest of the line
as the fallback (JavaScript `.` stops at line terminators); the text
outside the matched span is kept.  When no `[\w-]` character exists the
regular expression cannot match and `replace` returns the string
unchanged. -/
def reVarReplace (varRef : Str) (m : VarMap) : Str :=
  match splitAtFirst wordDash varRef with
  | none => varRef
  | some (pre, s1) =>
    let name := s1.takeWhile wordDash
    let s2 := s1.drop name.length
    let afterComma :=
      match s2.dropWhile isWsJS with
      | ',' :: t => t.dropWhile isWsJS
      | _ => s2
    let fallback := afterComma.takeWhile (fun c => !(c == '\n' || c == '\r'))
    let post := afterComma.drop fallback.length
    pre ++ varSubst m name fallback ++ post

/-- The token `var(` whose presence routes a value to the resolver. -/
def varParen : Str := str "var("

/-- `resolveValue` (transform-css.js lines 229-272).  The fuel bounds the
recursion of line 268, which the JavaScript code performs with no progress
guard whenever the rewritten value still contains the three characters
`var`; `outOfFuel` for every fuel therefore means the call never returns.
`substring(varStartIndex)` clamps `-1` to `0`, so when `var(` is absent the
whole value is scanned for a balanced pair.  The two `onWarning` calls of
lines 238-245 only write a message (and the first is unreachable because
line 234 throws first on unbalanced input), so they do not appear in the
returned value. -/
def resolveValue : Nat → Str → VarMap → Except JsErr Str
  | 0, _, _ => .error .outOfFuel
  | fuel + 1, value, m =>
    let sub :=
      match indexOfSub value varParen with
      | none => value
      | some i => value.drop i
    match balancedBody sub with
    | none => .error .typeError
    | some varRef =>
      let varFunc := varParen ++ varRef ++ [')']
      let varResult := reVarReplace varRef m
      let value' := replaceAllSub value varFunc varResult
      if containsSub value' (str "var") then resolveValue fuel value' m
      else .ok value'

/-- Termination of `resolveValue` on a given input: some finite recursion
depth suffices for the call to return (normally or with a thrown error). -/
def resolveTerminates (v : Str) (m : VarMap) : Prop :=
  ∃ fuel, resolveValue fuel v m ≠ .error .outOfFuel

/-! ## Rule filter (`filterVars`, transform-css.js lines 182-213) -/

/-- JavaScript stringification used when a regular expression is tested
against a field that may be `undefined`: `String(undefined) = "undefined"`. -/
def jsString (o : Option Str) : Str :=
  match o with
  | some s => s
  | none => str "undefined"

/-- `reVarProp.test(x)` where `reVarProp` is the regular expression
anchored pattern `^--`. -/
def reVarPropTest (o : Option Str) : Bool :=
  (str "--").isPrefixOf (jsString o)

/-- `reVarVal.test(x)` with `reVarVal = /^var(.*)/`: anchored at the start,
requiring only the three characters `var` (the `(.*)` group always
matches). -/
def reVarValTest (o : Option Str) : Bool :=
  (str "var").isPrefixOf (jsString o)

/-- The predicate `d => reVarProp.test(d.property) || reVarVal.test(d.value)`
used throughout `filterVars`. -/
def isVarRelated (d : Decl) : Bool :=
  reVarPropTest d.property || reVarValTest d.value

/-- The predicate `r => r.declarations.length` applied after the recursive
call on a container's nested rules: reading `declarations` of a rule that
has no such field (`keyframes`, `container`, `comment`, `other`) throws a
`TypeError` in JavaScript. -/
def declLenPos : Rule → Except JsErr Bool
  | .decl _ _ ds => .ok !ds.isEmpty
  | _ => .error .typeError

/-- `Array.prototype.filter` with the fallible predicate `declLenPos`,
evaluated left to right as JavaScript does. -/
def declLenFilter : List Rule → Except JsErr (List Rule)
  | [] => .ok []
  | r :: rest =>
    match declLenPos r with
    | .error e => .error e
    | .ok b =>
      match declLenFilter rest with
      | .error e => .error e
      | .ok rest' => .ok (if b then r :: rest' else rest')

/-- `filterVars` (transform-css.js lines 182-213).  The fuel decreases on
every recursive step and only needs to exceed the combined length and
nesting depth of the rule list; all concrete evaluations use an ample
value.  Per rule: a rule with a `declarations` array is kept iff some
declaration passes `isVarRelated` (the assignment of line 190 is dead —
line 192 immediately overwrites `declArray` — and `rule.declarations` is
never mutated, so kept rules keep all their declarations); a `keyframes`
rule is kept iff some step has such a declaration; a container filters its
nested rules recursively, then filters the survivors through the
`declarations.length` test of line 206 (which throws on comments and other
declaration-less survivors) and is kept iff the result is non-empty;
everything else is kept unchanged via the final `return true`. -/
def filterVars : Nat → List Rule → Except JsErr (List Rule)
  | 0, _ => .error .outOfFuel
  | _ + 1, [] => .ok []
  | fuel + 1, r :: rest =>
    let keep : Except JsErr (Option Rule) :=
      match r with
      | .decl t sel ds =>
        .ok (if (ds.filter isVarRelated).isEmpty then none else some (.decl t sel ds))
      | .keyframes n frames =>
        .ok (if (frames.filter
                  (fun k => !(k.declarations.filter isVarRelated).isEmpty)).isEmpty
             then none else some (.keyframes n frames))
      | .container t c rs =>
        match filterVars fuel rs with
        | .error e => .error e
        | .ok sub =>
          match declLenFilter sub with
          | .error e => .error e
          | .ok sub' => .ok (if sub'.isEmpty then none else some (.container t c sub'))
      | .comment c => .ok (some (.comment c))
      | .other t => .ok (some (.other t))
    match keep with
    | .error e => .error e
    | .ok o =>
      match filterVars fuel rest with
      | .error e => .error e
      | .ok rest' => .ok (match o with | none => rest' | some r' => r' :: rest')

/-! ## Variable collector (transform-css.js lines 66-124) -/

/-- A declaration the define pass records (transform-css.js line 82):
`prop && prop.indexOf('--') === 0` — the property must be truthy (present
and non-empty) and start with the two-character sigil. -/
def isDefProp (d : Decl) : Bool :=
  match d.property with
  | some p => !p.isEmpty && (str "--").isPrefixOf p
  | none => false

/-- The define pass on one rule (transform-css.js lines 66-94): only rules
of type `rule` whose selector list is exactly `[":root"]` contribute; each
qualifying declaration is written into the map in document order
(`map[prop] = value`), and when `preserve` is false the collected
declarations are spliced out in reverse index order, which removes exactly
the qualifying declarations. -/
def defineRule (preserve : Bool) (m : VarMap) (r : Rule) : VarMap × Rule :=
  match r with
  | .decl t sel ds =>
    if t = "rule" ∧ sel = [":root"] then
      let m' := ds.foldl
        (fun acc d => if isDefProp d then upsert acc (jsString d.property) d.value else acc) m
      let ds' := if preserve then ds else ds.filter (fun d => !isDefProp d)
      (m', .decl t sel ds')
    else (m, r)
  | _ => (m, r)

/-- `cssTree.stylesheet.rules.forEach(...)` of the define pass, carrying the
growing map left to right. -/
def defineVars (preserve : Bool) (m : VarMap) : List Rule → VarMap × List Rule
  | [] => (m, [])
  | r :: rest =>
    let p := defineRule preserve m r
    let q := defineVars preserve p.1 rest
    (q.1, p.2 :: q.2)

/-- Key normalisation of an override entry (transform-css.js line 106):
`'--' + key.replace(/^-+/, '')` — strip every leading hyphen, then prefix
exactly one sigil. -/
def normKey (k : Str) : Str :=
  str "--" ++ k.dropWhile (· == '-')

/-- The map updates of the override loop (transform-css.js lines 104-118):
each entry is written unconditionally under its normalised key. -/
def applyOverrides (m : VarMap) (vars : List (Str × Str)) : VarMap :=
  vars.foldl (fun acc kv => upsert acc (normKey kv.1) (some kv.2)) m

/-- The `:root` ruleset assembled from the overrides (transform-css.js
lines 98-118), appended to the tree when `preserve` is set. -/
def overridesRule (vars : List (Str × Str)) : Rule :=
  .decl "rule" [":root"]
    (vars.map (fun kv => ⟨"declaration", some (normKey kv.1), some kv.2⟩))

/-! ## Resolution walk (transform-css.js lines 127-164) -/

/-- Truthiness of `decl.value`: false for an absent value and for the empty
string. -/
def optTruthy (o : Option Str) : Bool :=
  match o with
  | some (_ :: _) => true
  | _ => false

/-- The visitor body of the resolution walk, one declaration list at a time
(transform-css.js lines 132-163).  Comments and token-free or falsy values
pass through (lines 137-144).  Otherwise the value is resolved; a result
equal to the literal string `undefined` leaves the declaration untouched
(line 148); with `preserve` unset the value is replaced in place
(line 150); with `preserve` set `declarations.splice(i, 0, ...)` inserts
the resolved copy *before* the original and the `i++` of line 160 plus the
loop increment step past both, so neither is revisited. -/
def resolveDecls (fuel : Nat) (m : VarMap) (st : Settings) : List Decl → Except JsErr (List Decl)
  | [] => .ok []
  | d :: rest =>
    if d.type ≠ "declaration" then (resolveDecls fuel m st rest).map (d :: ·)
    else if !optTruthy d.value then (resolveDecls fuel m st rest).map (d :: ·)
    else if !containsSub (jsString d.value) varParen then (resolveDecls fuel m st rest).map (d :: ·)
    else
      match resolveValue fuel (jsString d.value) m with
      | .error e => .error e
      | .ok r =>
        if r = str "undefined" then (resolveDecls fuel m st rest).map (d :: ·)
        else if st.preserve then
          (resolveDecls fuel m st rest).map (fun t => ⟨d.type, d.property, some r⟩ :: d :: t)
        else
          (resolveDecls fuel m st rest).map (fun t => { d with value := some r } :: t)

/-- The declaration lists of one keyframes rule, visited in order. -/
def resolveFrames (fuel : Nat) (m : VarMap) (st : Settings) : List Frame → Except JsErr (List Frame)
  | [] => .ok []
  | f :: rest =>
    match resolveDecls fuel m st f.declarations with
    | .error e => .error e
    | .ok ds =>
      match resolveFrames fuel m st rest with
      | .error e => .error e
      | .ok rest' => .ok (⟨f.values, ds⟩ :: rest')

/-- Modelled from the spec: the external `walk-css` dependency (§4.4) —
invoke the visitor on every declaration list: declaration-bearing rules,
every keyframe step, and the nested rules of containers, recursively.  The
tree fuel decreases on every step and bounds size plus nesting depth. -/
def resolveRules (fuel : Nat) (m : VarMap) (st : Settings) : Nat → List Rule → Except JsErr (List Rule)
  | 0, _ => .error .outOfFuel
  | _ + 1, [] => .ok []
  | tfuel + 1, r :: rest =>
    let head : Except JsErr Rule :=
      match r with
      | .decl t sel ds => (resolveDecls fuel m st ds).map (.decl t sel ·)
      | .keyframes n frames => (resolveFrames fuel m st frames).map (.keyframes n ·)
      | .container t c rs => (resolveRules fuel m st tfuel rs).map (.container t c ·)
      | .comment c => .ok (.comment c)
      | .other t => .ok (.other t)
    match head with
    | .error e => .error e
    | .ok r' =>
      match resolveRules fuel m st tfuel rest with
      | .error e => .error e
      | .ok rest' => .ok (r' :: rest')

/-! ## The transform (`transformVars`, transform-css.js lines 47-168) -/

/-- `transformVars` at the rule-tree level.  The text codec
(`parse-css`/`stringify-css`) is an external collaborator (spec §1, §6), so
the embedding receives the parsed tree and returns the transformed tree:
optionally filter (line 61), collect root-scope definitions (lines 66-94),
merge overrides and optionally append their `:root` ruleset
(lines 97-124) — both guarded by the overrides being non-empty — then
resolve every declaration list via the walk (lines 127-164). -/
def transformVars (fuel : Nat) (rules : List Rule) (st : Settings) : Except JsErr (List Rule) :=
  let step1 : Except JsErr (List Rule) :=
    if st.onlyVars then filterVars fuel rules else .ok rules
  match step1 with
  | .error e => .error e
  | .ok r1 =>
    let p := defineVars st.preserve [] r1
    let m := applyOverrides p.1 st.variables'
    let r2 := if st.variables' ≠ [] ∧ st.preserve then p.2 ++ [overridesRule st.variables'] else p.2
    resolveRules fuel m st fuel r2

/-! ## Chunk coalescer (index.js lines 214-246) -/

/-- The opening-brace character. -/
def lbrace : Char := (str "\x7b").headD ' '

/-- Tail of both branches of the `regex.cssVars` pre-test: the capture
`(--[^:)]+)` followed by `(?:\s*[:)])`.  Whitespace lies inside `[^:)]`, so
with backtracking the pattern matches exactly when after `--` there is at
least one character that is neither `:` nor `)` and the maximal such run is
followed immediately by `:` or `)`. -/
def cssVarsTail (u : Str) : Bool :=
  (str "--").isPrefixOf u &&
    (let v := u.drop 2
     let run := v.takeWhile (fun c => !(c == ':' || c == ')'))
     !run.isEmpty &&
       (match v.drop run.length with
        | c :: _ => c == ':' || c == ')'
        | [] => false))

/-- Branch `(?:var\(\s*)` of `regex.cssVars`, starting at the given suffix:
the literal `var(`, optional whitespace (forced maximal, since the next
literal is `--`), then the shared tail. -/
def cssVarsFunc (s : Str) : Bool :=
  varParen.isPrefixOf s && cssVarsTail ((s.drop 4).dropWhile isWsJS)

/-- The sub-language `[^;]* ;* \s*` between the opening brace and the
capture in the `:root` branch: a run without semicolons, then semicolons,
then whitespace (whitespace is itself semicolon-free, so the deterministic
maximal split below is complete). -/
def rootGapOk (p : Str) : Bool :=
  let b := p.takeWhile (· != ';')
  let c := (p.drop b.length).takeWhile (· == ';')
  ((p.drop b.length).drop c.length).all isWsJS

/-- Branch `(?::root\s*\x7b\s*[^;]*;*\s*)` of `regex.cssVars`, starting at
the given suffix: the literal `:root`, whitespace, an opening brace, then
some split of the gap language followed by the shared tail. -/
def cssVarsRoot (s : Str) : Bool :=
  (str ":root").isPrefixOf s &&
    (match (s.drop 5).dropWhile isWsJS with
     | c :: v =>
       c == lbrace &&
         (List.range (v.length + 1)).any
           (fun k => rootGapOk (v.take k) && cssVarsTail (v.drop k))
     | [] => false)

/-- `regex.cssVars.test(css)` (index.js line 42): the unanchored
alternation matches at some position of the text. -/
def cssVarsTest (s : Str) : Bool :=
  (List.range (s.length + 1)).any (fun p => cssVarsRoot (s.drop p) || cssVarsFunc (s.drop p))

/-- The character for a single decimal digit. -/
def digitChar : Nat → Char
  | 0 => '0' | 1 => '1' | 2 => '2' | 3 => '3' | 4 => '4'
  | 5 => '5' | 6 => '6' | 7 => '7' | 8 => '8' | _ => '9'

/-- Decimal digits of a natural number, via structurally decreasing fuel so
that concrete markers evaluate in the kernel. -/
def natDigitsAux : Nat → Nat → Str
  | 0, _ => []
  | fuel + 1, n =>
    if n < 10 then [digitChar n]
    else natDigitsAux fuel (n / 10) ++ [digitChar (n % 10)]

/-- Decimal representation of a chunk index, as template-interpolated into
the marker comment. -/
def natDigits (n : Nat) : Str := natDigitsAux (n + 1) n

/-- The marker comment `/*__CSSVARSPONYFILL-<i>__*/` for chunk `i`
(index.js lines 215 and 224). -/
def markerFor (i : Nat) : Str :=
  str "/*__CSSVARSPONYFILL-" ++ natDigits i ++ str "__*/"

/-- Position-aware map over the chunk list. -/
def combineAux (i : Nat) : List Str → List Str
  | [] => []
  | css :: rest => (if cssVarsTest css then css else markerFor i) :: combineAux (i + 1) rest

/-- Line 224 of index.js: concatenate the chunks, replacing each chunk that
fails the `regex.cssVars` pre-test (an inert chunk) with its positional
marker. -/
def combine (cssArray : List Str) : Str :=
  (combineAux 0 cssArray).flatten

/-- Try to match the marker pattern at the head of `s`; on success return
the total matched length and the parsed index (greedy `\d+` followed by
the closing literal of the comment marker). -/
def matchMarkerAt (s : Str) : Option (Nat × Nat) :=
  if (str "/*__CSSVARSPONYFILL-").isPrefixOf s then
    let s1 := s.drop 20
    let ds := s1.takeWhile Char.isDigit
    if !ds.isEmpty && (str "__*/").isPrefixOf (s1.drop ds.length) then
      some (20 + ds.length + 4, ds.foldl (fun a c => a * 10 + (c.toNat - 48)) 0)
    else none
  else none

/-- First marker match in `s`: its start position, length and index. -/
def findMarker : Str → Option (Nat × Nat × Nat)
  | [] => none
  | c :: rest =>
    match matchMarkerAt (c :: rest) with
    | some (len, idx) => some (0, len, idx)
    | none => (findMarker rest).map (fun t => (t.1 + 1, t.2.1, t.2.2))

/-- `cssMarker.exec(text)` with the regular expression's persistent
`lastIndex`: the first marker match starting at or after `lastIndex`. -/
def findMarkerFrom (text : Str) (lastIndex : Nat) : Option (Nat × Nat × Nat) :=
  (findMarker (text.drop lastIndex)).map (fun t => (lastIndex + t.1, t.2.1, t.2.2))

/-- The marker-replacement loop of index.js lines 237-246.  The `g`-flagged
`cssMarker` regular expression keeps its `lastIndex` across iterations, so
after a replacement the next search starts at the end position of the
previous match *in the old string*; `String.replace` substitutes the first
occurrence of the matched text, and an out-of-range `cssArray` index would
substitute the string `undefined`.  The fuel bounds the loop (each
iteration advances `lastIndex`); `none` means the fuel was exhausted. -/
def restoreLoop : Nat → Nat → List Str → Str → Option Str
  | 0, _, _, _ => none
  | fuel + 1, lastIndex, cssArray, text =>
    match findMarkerFrom text lastIndex with
    | none => some text
    | some (pos, len, idx) =>
      let matched := (text.drop pos).take len
      let rep := (cssArray.get? idx).getD (str "undefined")
      restoreLoop fuel (pos + len) cssArray (replaceFirstSub text matched rep)

/-! ## Concrete fixtures shared by several claims -/

/-- The acyclic definition chain of the termination scenario. -/
def chainMap : VarMap :=
  [(str "--a", some (str "value")), (str "--b", some (str "var(--a)")),
   (str "--c", some (str "var(--b)"))]

/-- A cyclic pair of definitions. -/
def cycMap : VarMap :=
  [(str "--a", some (str "var(--b)")), (str "--b", some (str "var(--a)"))]

/-- The `:root` ruleset defining `--x: 1px`. -/
def rootPx : Rule :=
  .decl "rule" [":root"] [⟨"declaration", some (str "--x"), some (str "1px")⟩]

/-- A ruleset referencing `--x` without fallback. -/
def aRef : Rule :=
  .decl "rule" ["a"] [⟨"declaration", some (str "width"), some (str "var(--x)")⟩]

/-- A ruleset referencing `--x` with the fallback `red`. -/
def aRefFb : Rule :=
  .decl "rule" ["a"] [⟨"declaration", some (str "width"), some (str "var(--x, red)")⟩]

/-- Settings with filtering off, preservation on and no overrides. -/
def stPreserve : Settings := ⟨false, true, []⟩

/-! ## Helper lemmas -/

/-- A filtered list is empty exactly when no element satisfies the
predicate; connects the `Boolean(array.filter(p).length)` idiom of the
source to `List.any`. -/
theorem filter_isEmpty_eq {α : Type} (p : α → Bool) :
    ∀ l : List α, (l.filter p).isEmpty = !l.any p
  | [] => rfl
  | a :: l => by
    cases h : p a <;>
      simp [List.filter_cons, h, List.any_cons, filter_isEmpty_eq p l]

/-- Object assignment followed by lookup of the same key yields the
assigned value. -/
theorem assocFind_upsert_self (k : Str) (v : Option Str) :
    ∀ m : VarMap, assocFind (upsert m k v) k = some v
  | [] => by simp [upsert, assocFind]
  | (k', v') :: t => by
    by_cases h : k' = k
    · simp [upsert, assocFind, h]
    · simp [upsert, assocFind, h, assocFind_upsert_self k v t]

/-- The define pass with `preserve` set returns every rule unchanged. -/
theorem defineRule_preserve (m : VarMap) (r : Rule) :
    (defineRule true m r).2 = r := by
  cases r with
  | decl t sel ds =>
    simp only [defineRule]
    split <;> rfl
  | keyframes n fs => rfl
  | container t c rs => rfl
  | comment c => rfl
  | other t => rfl

/-- The whole define pass with `preserve` set leaves the rule list
untouched (it only builds the map). -/
theorem defineVars_preserve : ∀ (rules : List Rule) (m : VarMap),
    (defineVars true m rules).2 = rules
  | [], _ => rfl
  | r :: rest, m => by
    simp [defineVars, defineRule_preserve, defineVars_preserve rest]

/-- The keyframes keep-condition of `filterVars`, rephrased through
`List.any`. -/
theorem kf_any_eq : ∀ fs : List Frame,
    (fs.any (fun k => !(k.declarations.filter isVarRelated).isEmpty)) =
      fs.any (fun k => k.declarations.any isVarRelated)
  | [] => rfl
  | f :: fs => by
    simp [List.any_cons, filter_isEmpty_eq, kf_any_eq fs]

/-- Behaviour of `filterVars` on a single declaration-bearing rule: the
rule is kept, with its declaration list untouched, exactly when some
declaration is variable-related. -/
theorem filterVars_declRule (t : String) (sel : List String) (ds : List Decl) :
    filterVars 2 [Rule.decl t sel ds] =
      .ok (if ds.any isVarRelated then [Rule.decl t sel ds] else []) := by
  cases h : ds.any isVarRelated <;>
    simp [filterVars, filter_isEmpty_eq, h]

/-- Behaviour of `filterVars` on a single keyframes rule: retained in full
exactly when some step has a variable-related declaration. -/
theorem filterVars_keyframes (n : String) (fs : List Frame) :
    filterVars 2 [Rule.keyframes n fs] =
      .ok (if fs.any (fun f => f.declarations.any isVarRelated)
           then [Rule.keyframes n fs] else []) := by
  cases h : fs.any (fun f => f.declarations.any isVarRelated) <;>
    simp [filterVars, filter_isEmpty_eq, kf_any_eq, h]

/-- A non-empty pattern never occurs in the empty string. -/
theorem containsSub_nil_varParen : containsSub [] varParen = false := rfl

/-- One step of the cyclic resolution: resolving `var(--a)` hands the
whole fuel-smaller problem `var(--b)` to the recursive call. -/
theorem cyc_step_a (n : Nat) :
    resolveValue (n + 1) (str "var(--a)") cycMap =
      resolveValue n (str "var(--b)") cycMap := rfl

/-- The symmetric step of the cycle. -/
theorem cyc_step_b (n : Nat) :
    resolveValue (n + 1) (str "var(--b)") cycMap =
      resolveValue n (str "var(--a)") cycMap := rfl

/-- On the cyclic map the recursion of `resolveValue` exhausts any amount
of fuel: every step reproduces the same shape with one unit less. -/
theorem cyc_noFuel : ∀ n : Nat,
    resolveValue n (str "var(--a)") cycMap = .error .outOfFuel ∧
      resolveValue n (str "var(--b)") cycMap = .error .outOfFuel
  | 0 => ⟨rfl, rfl⟩
  | n + 1 =>
    ⟨(cyc_step_a n).trans (cyc_noFuel n).2, (cyc_step_b n).trans (cyc_noFuel n).1⟩

/-! ## Claims -/

/-- C1, counterexample: resolution by `resolveValue` does not terminate for
every input — on the cyclic map `--a: var(--b); --b: var(--a)` the call
`resolveValue` on `var(--a)` never returns for any recursion depth,
because every rewrite still contains the `var` token and the code recurses
with no progress guard. -/
theorem c1_counterexample : ¬ resolveTerminates (str "var(--a)") cycMap := by
  rintro ⟨n, hn⟩
  exact hn (cyc_noFuel n).1

/-- C1, amended: for the acyclic chain `--a: value; --b: var(--a);
--c: var(--b)` the recursion of `resolveValue` terminates and fully
unwinds, resolving `var(--c)` to `value`; universal termination, however,
fails on cyclic definitions (see the counterexample). -/
theorem c1_amended :
    resolveValue 4 (str "var(--c)") chainMap = .ok (str "value") ∧
      resolveTerminates (str "var(--c)") chainMap := by
  refine ⟨rfl, 4, ?_⟩
  intro h
  rw [show resolveValue 4 (str "var(--c)") chainMap = .ok (str "value") from rfl] at h
  exact Except.noConfusion h

/-- C2, counterexample: with the definition `--x` mapped to the *empty
string*, resolving `var(--x, red)` substitutes the fallback `red` rather
than the mapped empty value — `!replacement` is true for an empty string in
JavaScript — contradicting the claim that the fallback is never consulted
when the name is present in the map. -/
theorem c2_counterexample :
    resolveValue 2 (str "var(--x, red)") [(str "--x", some [])] = .ok (str "red") ∧
      mapGet [(str "--x", some ([] : Str))] (str "--x") = some [] ∧
      str "red" ≠ ([] : Str) :=
  ⟨rfl, rfl, by decide⟩

/-- C2, amended: the fallback text is substituted exactly when the name is
absent from the map *or* its mapped value is the empty string (JavaScript
falsiness); a non-empty mapped value is always substituted with the
fallback never consulted; an absent name without fallback substitutes the
stringified `undefined`.  The two closing conjuncts exercise the full
resolver on a defined name and on an absent name with fallback. -/
theorem c2_amended :
    (∀ (m : VarMap) (name fb : Str), mapGet m name = none →
      varSubst m name fb = if fb = [] then str "undefined" else fb) ∧
    (∀ (m : VarMap) (name fb r : Str), mapGet m name = some r → r ≠ [] →
      varSubst m name fb = r) ∧
    (∀ (m : VarMap) (name fb : Str), mapGet m name = some [] →
      varSubst m name fb = if fb = [] then [] else fb) ∧
    resolveValue 2 (str "var(--x, red)") [(str "--x", some (str "1px"))] = .ok (str "1px") ∧
    resolveValue 2 (str "var(--u, red)") [] = .ok (str "red") := by
  refine ⟨?_, ?_, ?_, rfl, rfl⟩
  · intro m name fb h
    by_cases hf : fb = [] <;> simp [varSubst, h, hf]
  · intro m name fb r h hr
    simp [varSubst, h, hr]
  · intro m name fb h
    by_cases hf : fb = [] <;> simp [varSubst, h, hf]

/-- C2, witness: the amended claim applied to a concrete map where `--x`
is defined as `1px` — the mapped value wins over the fallback `red`. -/
theorem c2_witness :
    varSubst [(str "--x", some (str "1px"))] (str "--x") (str "red") = str "1px" :=
  c2_amended.2.1 [(str "--x", some (str "1px"))] (str "--x") (str "red") (str "1px")
    rfl (by decide)

/-- C3, counterexample: with `preserve` set, transforming
`:root (--x: 1px); a (width: var(--x))` leaves the resolved copy
*before* the untouched original — `declarations.splice(i, 0, ...)` inserts
at index `i`, in front of the current element — so the output order is
resolved-then-original, not the claimed original-then-resolved. -/
theorem c3_counterexample :
    transformVars 4 [rootPx, aRef] stPreserve =
      .ok [rootPx, Rule.decl "rule" ["a"]
        [⟨"declaration", some (str "width"), some (str "1px")⟩,
         ⟨"declaration", some (str "width"), some (str "var(--x)")⟩]] ∧
    ([⟨"declaration", some (str "width"), some (str "1px")⟩,
      ⟨"declaration", some (str "width"), some (str "var(--x)")⟩] : List Decl) ≠
      [⟨"declaration", some (str "width"), some (str "var(--x)")⟩,
       ⟨"declaration", some (str "width"), some (str "1px")⟩] :=
  ⟨rfl, by decide⟩

/-- C3, amended: with `preserve` set no declaration is ever deleted by the
define pass (first conjunct: the pass returns the rule list unchanged),
and every reference-bearing declaration stays in the tree unmodified with
the resolved copy inserted immediately *before* it, giving
resolved-then-original output order; the iteration index is advanced past
both, so neither the inserted declaration nor the preserved original is
visited again by the walk (second conjunct: the walk emits the pair and
continues with the remaining declarations only). -/
theorem c3_amended :
    (∀ (m : VarMap) (rules : List Rule), (defineVars true m rules).2 = rules) ∧
    (∀ (fuel : Nat) (m : VarMap) (st : Settings) (p : Option Str)
        (rest : List Decl) (v r : Str),
      st.preserve = true →
      containsSub v varParen = true →
      resolveValue fuel v m = .ok r →
      r ≠ str "undefined" →
      resolveDecls fuel m st (⟨"declaration", p, some v⟩ :: rest) =
        (resolveDecls fuel m st rest).map
          (fun t => ⟨"declaration", p, some r⟩ :: ⟨"declaration", p, some v⟩ :: t)) := by
  constructor
  · intro m rules
    exact defineVars_preserve rules m
  · intro fuel m st p rest v r hp hc hr hu
    have hv : v ≠ [] := by
      intro e
      rw [e, containsSub_nil_varParen] at hc
      exact Bool.noConfusion hc
    cases v with
    | nil => exact absurd rfl hv
    | cons c t =>
      simp [resolveDecls, jsString, optTruthy, hc, hr, hu, hp]

/-- C3, witness: the amended insertion behaviour at a concrete input —
resolving `width: var(--x)` against `--x: 1px` with `preserve` set yields
the resolved declaration followed by the preserved original. -/
theorem c3_witness :
    resolveDecls 2 [(str "--x", some (str "1px"))] stPreserve
        [⟨"declaration", some (str "width"), some (str "var(--x)")⟩] =
      .ok [⟨"declaration", some (str "width"), some (str "1px")⟩,
           ⟨"declaration", some (str "width"), some (str "var(--x)")⟩] := by
  have h := c3_amended.2 2 [(str "--x", some (str "1px"))] stPreserve
    (some (str "width")) [] (str "var(--x)") (str "1px") rfl rfl rfl (by decide)
  rw [h]
  rfl

/-- C4, counterexample: filtering keeps a declaration-rule *with all its
declarations*, including ones that are neither definitions nor reference
sites — `filterVars` only uses the filtered array for the length test and
never writes it back, so `width: 1px` survives next to `--x: red`. -/
theorem c4_counterexample :
    filterVars 2 [Rule.decl "rule" ["a"]
        [⟨"declaration", some (str "width"), some (str "1px")⟩,
         ⟨"declaration", some (str "--x"), some (str "red")⟩]] =
      .ok [Rule.decl "rule" ["a"]
        [⟨"declaration", some (str "width"), some (str "1px")⟩,
         ⟨"declaration", some (str "--x"), some (str "red")⟩]] ∧
    isVarRelated ⟨"declaration", some (str "width"), some (str "1px")⟩ = false ∧
    isVarRelated ⟨"declaration", some (str "--x"), some (str "red")⟩ = true :=
  ⟨rfl, rfl, rfl⟩

/-- C4, amended: filtering keeps a declaration-rule — with its declaration
list unmodified — exactly when at least one declaration is a definition or
reference site, and drops the rule when none is; individual non-variable
declarations are not removed by this filter. -/
theorem c4_amended (t : String) (sel : List String) (ds : List Decl) :
    filterVars 2 [Rule.decl t sel ds] =
      .ok (if ds.any isVarRelated then [Rule.decl t sel ds] else []) :=
  filterVars_declRule t sel ds

/-- C5, counterexample: a keyframes rule whose only variable use is the
value `10px var(--x)` — the token appears mid-value — is *dropped* by the
filter, because the reference-site test is the start-anchored pattern
`^var`; yet the value does contain the variable-function token followed by
a parenthesis. -/
theorem c5_counterexample :
    filterVars 2 [Rule.keyframes "k"
        [⟨["from"], [⟨"declaration", some (str "opacity"), some (str "10px var(--x)")⟩]⟩]] =
      .ok [] ∧
    containsSub (str "10px var(--x)") varParen = true :=
  ⟨rfl, rfl⟩

/-- C5, amended: with the filter enabled a keyframes rule (and likewise a
font-face rule) is retained in full — all steps and declarations
unmodified — exactly when at least one of its declarations has a property
starting with the sigil or a value *starting* with the three characters
`var` (the test is anchored at the start and does not require a
parenthesis, so `varnish` counts and `10px var(--x)` does not), and is
dropped otherwise. -/
theorem c5_amended :
    (∀ (n : String) (fs : List Frame),
      filterVars 2 [Rule.keyframes n fs] =
        .ok (if fs.any (fun f => f.declarations.any isVarRelated)
             then [Rule.keyframes n fs] else [])) ∧
    (∀ (sel : List String) (ds : List Decl),
      filterVars 2 [Rule.decl "font-face" sel ds] =
        .ok (if ds.any isVarRelated then [Rule.decl "font-face" sel ds] else [])) ∧
    reVarValTest (some (str "varnish")) = true ∧
    reVarValTest (some (str "10px var(--x)")) = false :=
  ⟨filterVars_keyframes, fun sel ds => filterVars_declRule "font-face" sel ds, rfl, rfl⟩

/-- C6: evaluating the filter at the failing input — a container rule whose
nested rules hold a comment.  The recursive filter passes the comment
through (as it does at top level, second conjunct), but the subsequent
`r.declarations.length` test of line 206 reads `length` of `undefined` and
throws a `TypeError`, contradicting the documented pass-through of comments
and unknown rule kinds without error. -/
theorem c6_eval :
    filterVars 3 [Rule.container "media" "screen" [Rule.comment "c"]] =
      .error .typeError ∧
    filterVars 3 [Rule.comment "c", Rule.other "custom-kind"] =
      .ok [Rule.comment "c", Rule.other "custom-kind"] :=
  ⟨rfl, rfl⟩

/-- C7: the transform is two-pass.  First conjuncts: the resolution walk
never touches a declaration whose value is absent or free of the `var(`
token — it is emitted unchanged and `resolveValue` is not consulted (the
result is a plain cons over the rest of the walk, for every map and fuel).
Last conjunct: because the variable map is fully built before any
resolution, a reference that textually *precedes* its definition still
resolves — `a (width: var(--c))` placed before `:root (--c: 1px)` comes
back with the resolved `1px` inserted. -/
theorem c7 :
    (∀ (fuel : Nat) (m : VarMap) (st : Settings) (p : Option Str)
        (rest : List Decl) (v : Str),
      containsSub v varParen = false →
      resolveDecls fuel m st (⟨"declaration", p, some v⟩ :: rest) =
        (resolveDecls fuel m st rest).map (⟨"declaration", p, some v⟩ :: ·)) ∧
    (∀ (fuel : Nat) (m : VarMap) (st : Settings) (p : Option Str)
        (rest : List Decl),
      resolveDecls fuel m st (⟨"declaration", p, none⟩ :: rest) =
        (resolveDecls fuel m st rest).map (⟨"declaration", p, none⟩ :: ·)) ∧
    transformVars 4
        [Rule.decl "rule" ["a"]
          [⟨"declaration", some (str "width"), some (str "var(--c)")⟩],
         Rule.decl "rule" [":root"]
          [⟨"declaration", some (str "--c"), some (str "1px")⟩]] stPreserve =
      .ok
        [Rule.decl "rule" ["a"]
          [⟨"declaration", some (str "width"), some (str "1px")⟩,
           ⟨"declaration", some (str "width"), some (str "var(--c)")⟩],
         Rule.decl "rule" [":root"]
          [⟨"declaration", some (str "--c"), some (str "1px")⟩]] := by
  refine ⟨?_, ?_, rfl⟩
  · intro fuel m st p rest v hc
    cases v with
    | nil => simp [resolveDecls, optTruthy]
    | cons c t => simp [resolveDecls, jsString, optTruthy, hc]
  · intro fuel m st p rest
    simp [resolveDecls, optTruthy]

/-- C7, witness: the no-visit clause at a concrete declaration — a value
without the token passes through the walk unchanged. -/
theorem c7_witness :
    resolveDecls 1 [] stPreserve
        [⟨"declaration", some (str "width"), some (str "1px")⟩] =
      .ok [⟨"declaration", some (str "width"), some (str "1px")⟩] := by
  have h := c7.1 1 [] stPreserve (some (str "width")) [] (str "1px") rfl
  rw [h]
  rfl

/-- C8, counterexample: the override entry `x` with the *empty-string*
value is normalised and written into the map over the root definition
`--x: 1px`, yet the reference `var(--x, red)` resolves to the fallback
`red`, not to the override value — the empty string is falsy in the
resolver's lookup — refuting "every reference to that name resolves to the
override value". -/
theorem c8_counterexample :
    transformVars 4 [rootPx, aRefFb] ⟨false, false, [(str "x", [])]⟩ =
      .ok [Rule.decl "rule" [":root"] [],
           Rule.decl "rule" ["a"]
             [⟨"declaration", some (str "width"), some (str "red")⟩]] ∧
    str "red" ≠ ([] : Str) :=
  ⟨rfl, by decide⟩

/-- C8, amended: every override key is normalised by stripping all leading
hyphens and prefixing exactly one sigil (middle conjuncts), and the
normalised entry unconditionally overwrites any same-named map entry — the
final lookup always returns the override value no matter what the map held
(first conjunct).  A reference then resolves to the override value
regardless of source order whenever that value is non-empty (last
conjunct: `--x: 1px` overridden by `x: 2px` resolves to `2px`); an
empty-string override is treated as undefined by the falsy lookup, so a
present fallback wins instead (see the counterexample). -/
theorem c8_amended :
    (∀ (m : VarMap) (vs : List (Str × Str)) (k v : Str),
      mapGet (applyOverrides m (vs ++ [(k, v)])) (normKey k) = some v) ∧
    normKey (str "x") = str "--x" ∧
    normKey (str "--x") = str "--x" ∧
    normKey (str "----x") = str "--x" ∧
    transformVars 4 [rootPx, aRef] ⟨false, false, [(str "x", str "2px")]⟩ =
      .ok [Rule.decl "rule" [":root"] [],
           Rule.decl "rule" ["a"]
             [⟨"declaration", some (str "width"), some (str "2px")⟩]] := by
  refine ⟨?_, rfl, rfl, rfl, rfl⟩
  intro m vs k v
  rw [applyOverrides, List.foldl_append]
  simp [mapGet, assocFind_upsert_self]

/-- C9: evaluating the coalescing layer at the failing input.  Both chunks
`abc` and `xyz` fail the `regex.cssVars` pre-test and are replaced by
positional markers (first conjunct); since the combined text is free of
variable tokens, the transform leaves it unchanged (spec §8 no-op
property), and the restore loop — whose `g`-flagged regular expression
keeps its `lastIndex` of 25 after the first replacement while the second
marker has shifted to position 3 — replaces only the first marker: chunk 1
never reappears and the literal marker comment is left in the output
(second conjunct), instead of the claimed byte-identical `abcxyz`.  With
chunks no shorter than their markers every marker is restored and the
inert chunks do appear byte-identical (last conjunct). -/
theorem c9_eval :
    combine [str "abc", str "xyz"] = markerFor 0 ++ markerFor 1 ∧
    restoreLoop 5 0 [str "abc", str "xyz"] (markerFor 0 ++ markerFor 1) =
      some (str "abc" ++ markerFor 1) ∧
    str "abc" ++ markerFor 1 ≠ str "abc" ++ str "xyz" ∧
    restoreLoop 5 0 [str "abcdefghijklmnopqrstuvwxyz", str "qrstuvwxyzabcdefghijklmnop"]
        (combine [str "abcdefghijklmnopqrstuvwxyz", str "qrstuvwxyzabcdefghijklmnop"]) =
      some (str "abcdefghijklmnopqrstuvwxyz" ++ str "qrstuvwxyzabcdefghijklmnop") :=
  ⟨rfl, rfl, by decide, rfl⟩

/-- C10: a declaration whose value contains the variable-function token is
left completely unchanged by the walk when the fully resolved value is the
literal string `undefined` — no in-place replacement and no inserted
sibling, whatever `preserve` is (first implication); for any other
resolved value the normal rewrite happens: the resolved declaration
replaces the original when `preserve` is unset, or is inserted in front of
the preserved original when it is set (second implication). -/
theorem c10 (fuel : Nat) (m : VarMap) (st : Settings) (p : Option Str)
    (rest : List Decl) (v r : Str)
    (hc : containsSub v varParen = true)
    (hr : resolveValue fuel v m = .ok r) :
    (r = str "undefined" →
      resolveDecls fuel m st (⟨"declaration", p, some v⟩ :: rest) =
        (resolveDecls fuel m st rest).map (⟨"declaration", p, some v⟩ :: ·)) ∧
    (r ≠ str "undefined" →
      resolveDecls fuel m st (⟨"declaration", p, some v⟩ :: rest) =
        (resolveDecls fuel m st rest).map
          (fun t => ⟨"declaration", p, some r⟩ ::
            (if st.preserve then ⟨"declaration", p, some v⟩ :: t else t))) := by
  have hv : v ≠ [] := by
    intro e
    rw [e, containsSub_nil_varParen] at hc
    exact Bool.noConfusion hc
  cases v with
  | nil => exact absurd rfl hv
  | cons c t =>
    constructor
    · intro hu
      simp [resolveDecls, jsString, optTruthy, hc, hr, hu]
    · intro hu
      cases hp : st.preserve <;>
        simp [resolveDecls, jsString, optTruthy, hc, hr, hu, hp]

/-- C10, witness: resolving a lone reference to an undefined variable with
no fallback produces the string `undefined`, and the declaration passes
through the walk completely unchanged even though `preserve` is true. -/
theorem c10_witness :
    resolveDecls 1 [] stPreserve
        [⟨"declaration", some (str "width"), some (str "var(--u)")⟩] =
      .ok [⟨"declaration", some (str "width"), some (str "var(--u)")⟩] := by
  have h := (c10 1 [] stPreserve (some (str "width")) [] (str "var(--u)")
    (str "undefined") rfl rfl).1 rfl
  rw [h]
  rfl

end CssVars
